import Mathlib

/-!
Shallow embedding of the MapXchange map-server protocol core
(`src/lib/map_server_backend.py`, data model from
`src/map_server/map_database.py`).

Modelling conventions:
* The additively homomorphic Paillier cipher is idealized: a ciphertext is
  identified with the plaintext it decrypts to (`Ct := Int`), so
  `paillier.EncryptedNumber(pk, c) + k` becomes `c + k` and `decrypt` is the
  identity.  The claims under verification only use the homomorphic-addition
  law of the cipher, for which this idealization is exact.
* The SQLAlchemy session is a pair of database states (`committed`,
  `pending`): queries and mutations act on `pending`, `commit` copies
  `pending` into `committed`, `rollback` restores `pending` from `committed`.
* `random.randint` draws are passed in as explicit integer arguments
  (or as a stream `Nat → Int` indexed by draw order).
* Python truthiness of an optional integer column (`if point.fz_pending:`)
  is `otruthy`; truthiness of a plain integer argument is `truthy`.
* `config.EVAL` / `config.USE_PAILLIER` / `config.VALID` are fields of an
  explicit `Config` record.
-/

namespace MapXchange

/-- Producers (the authenticated users) are identified by their id. -/
abbrev Producer := Nat

/-- Idealized Paillier ciphertext: identified with its decryption. -/
abbrev Ct := Int

/-- Decryption of an idealized ciphertext with the map's private key. -/
def decrypt (c : Ct) : Int := c

/-- Python truthiness of an `int` argument (`if result_optimal_pending:`). -/
def truthy (x : Int) : Bool := x != 0

/-- Python truthiness of a nullable integer column (`if point.fz_pending:`). -/
def otruthy : Option Int → Bool
  | none => false
  | some v => v != 0

/-- Global configuration switches read by the backend
(`config.EVAL`, `config.USE_PAILLIER`, `config.VALID`). -/
structure Config where
  usePaillier : Bool
  valid : Bool
  eval : Bool
deriving DecidableEq

/-- One row of the `points` table (`StoredPoint` in `map_database.py`).
Many-to-many producer relationships (`open_requests`, `current_comparators`,
`point_vendees`) are owned lists of producer ids. -/
structure StoredPoint where
  id : Nat
  map_id : Nat
  ap : Int
  ae : Int
  usage_total : Option Ct
  fz_optimal : Option Ct
  provider_optimal : Option Producer
  fz_pending : Option Ct
  provider_pending : Option Producer
  fz_unknown : Option Ct
  provider_unknown : Option Producer
  open_requests : List Producer
  current_offset : Int
  current_comparators : List Producer
  last_comparator : Option Producer
  point_vendees : List Producer
deriving DecidableEq

/-- One row of the `reverse_querists` table.  `map_id` is the nullable
foreign key set by appending the row to `MapKey.reverse_querists`
(it stays `none` when the row is only `session.add`ed, as in eval mode). -/
structure ReverseQuerist where
  map_id : Option Nat
  producer : Producer
  point_count : Nat
  offset : Int
  tool : String
deriving DecidableEq

/-- One row of the `map_keys` table (`MapKey` in `map_database.py`). -/
structure MapKey where
  map_id : Nat
  machine : String
  material : String
  tool : String
  public_key_n : Nat
  first_provider : Producer
  past_requests : List Producer
deriving DecidableEq

/-- One row of the `map_usage` table. -/
structure MapUsage where
  map_id : Nat
  provider : Producer
  usage_provider : Option Ct
deriving DecidableEq

/-- One row of the `retrievals_producer` table. -/
structure RetrievalProducer where
  client : Producer
  point_count : Nat
deriving DecidableEq

/-- One row of the `billing_information_producer` table. -/
structure BillingProducer where
  provider : Option Producer
  count_provider : Nat
  client : Producer
deriving DecidableEq

/-- One row of the `preview_billing` table. -/
structure PreviewBilling where
  client : Producer
  map_id : Nat
deriving DecidableEq

/-- One row of the `offset_billing` table. -/
structure OffsetBilling where
  client : Producer
  point_count : Nat
deriving DecidableEq

/-- The map-server database: the tables touched by the protocol core.
`nextPointId` models the autoincrement id assigned to newly inserted
points. -/
structure DBState where
  maps : List MapKey
  points : List StoredPoint
  usages : List MapUsage
  reverseQuerists : List ReverseQuerist
  retrievals : List RetrievalProducer
  billings : List BillingProducer
  previewBillings : List PreviewBilling
  offsetBillings : List OffsetBilling
  nextPointId : Nat
deriving DecidableEq

/-- The SQLAlchemy session: mutations act on `pending`; `committed` is what
a subsequent independent read observes. -/
structure Session where
  committed : DBState
  pending : DBState
deriving DecidableEq

/-- Commit the session (`db.session.commit()`). -/
def Session.commit (s : Session) : Session := ⟨s.pending, s.pending⟩

/-- Roll the session back (`db.session.rollback()`). -/
def Session.rollback (s : Session) : Session := ⟨s.committed, s.committed⟩

/-- A session whose pending and committed states agree. -/
def Session.clean (st : DBState) : Session := ⟨st, st⟩

/-- Error outcomes; in the Python code these are the distinct `ValueError`
messages (plus the `RuntimeError`/`TypeError`/`IndexError` escapes). -/
inductive Err where
  | notFound
  | notRequested
  | unaskedFor
  | couldNotVerify
  | notVerified
  | invalidResult
  | subOptimal
  | notPerformed
  | noRelevantPoints
  | mapNotStored
  | alreadyReverseQueried
  | alreadyRegularQueried
  | publicKeyMismatch
  | nonUniqueMap
  | reverseQueriedNoOffset
  | neverReverseQueried
  | typeErr
  | indexErr
  | plaintextNotAllowed
deriving DecidableEq

/-- `StoredPoint.query.filter(StoredPoint.id == point_id).one()`. -/
def findPoint (st : DBState) (pid : Nat) : Option StoredPoint :=
  st.points.find? (fun p => p.id == pid)

/-- Write back a (mutated) point row. -/
def updatePoint (st : DBState) (p : StoredPoint) : DBState :=
  { st with points := st.points.map (fun q => if q.id == p.id then p else q) }

/-- `MapKey.query.filter(MapKey.map_id == map_id).one_or_none()`. -/
def findMap (st : DBState) (mid : Nat) : Option MapKey :=
  st.maps.find? (fun m => m.map_id == mid)

/-- Write back a (mutated) map row. -/
def updateMap (st : DBState) (m : MapKey) : DBState :=
  { st with maps := st.maps.map (fun q => if q.map_id == m.map_id then m else q) }

/-- `MapKey.query.filter(map_id, machine, material, tool).one_or_none()`. -/
def findMapByName (st : DBState) (mid : Nat) (machine material tool : String) :
    Option MapKey :=
  st.maps.find? (fun m =>
    m.map_id == mid && m.machine == machine && m.material == material &&
      m.tool == tool)

/-- `MapUsage.query.filter(map_id, provider).one_or_none()`. -/
def findUsage (st : DBState) (mid : Nat) (provider : Producer) : Option MapUsage :=
  st.usages.find? (fun u => u.map_id == mid && u.provider == provider)

/-- Write back a (mutated) map-usage row. -/
def updateUsage (st : DBState) (u : MapUsage) : DBState :=
  { st with usages := st.usages.map (fun q =>
      if q.map_id == u.map_id && q.provider == u.provider then u else q) }

/-- `StoredPoint.query.filter(map_id, ap, ae).one_or_none()`. -/
def findPointByCoord (st : DBState) (mid : Nat) (ap ae : Int) : Option StoredPoint :=
  st.points.find? (fun p => p.map_id == mid && p.ap == ap && p.ae == ae)

/-- The rows of `map_key.reverse_querists` (the relationship collection:
voucher rows whose foreign key points at this map). -/
def mapQuerists (st : DBState) (mid : Nat) : List ReverseQuerist :=
  st.reverseQuerists.filter (fun q => q.map_id == some mid)

/-- Pending-slot verification step of `_store_comparison`
(`map_server_backend.py` lines 89-98): a given `result_optimal_pending`
must have been asked for and must equal the stored optimal ciphertext,
and a stored pending value must not be left unverified. -/
def verifyPending (point : StoredPoint) (result_optimal_pending : Int) :
    Except Err StoredPoint :=
  if truthy result_optimal_pending then
    if !otruthy point.fz_pending then .error .unaskedFor
    else if point.fz_optimal ≠ some result_optimal_pending then
      .error .couldNotVerify
    else .ok { point with fz_pending := none, provider_pending := none }
  else if otruthy point.fz_pending then .error .notVerified
  else .ok point

/-- Unknown-slot resolution step of `_store_comparison` (lines 100-121):
promote the unknown to optimal when it won, demote it to pending when the
incumbent won, rejecting a same-provider downgrade; the unknown slot is
cleared unless in eval mode. -/
def resolveUnknownCore (point : StoredPoint)
    (result_optimal_unknown : Int) : Except Err StoredPoint :=
  if point.fz_unknown = some result_optimal_unknown then
    .ok { point with
      fz_pending := point.fz_optimal,
      provider_pending := point.provider_optimal,
      fz_optimal := some result_optimal_unknown,
      provider_optimal := point.provider_unknown,
      point_vendees := [] }
  else if point.fz_optimal ≠ some result_optimal_unknown then
    .error .invalidResult
  else if point.provider_optimal = point.provider_unknown then
    .error .subOptimal
  else
    .ok { point with
      fz_pending := point.fz_unknown,
      provider_pending := point.provider_unknown }

/-- Outer structure of the unknown-slot step (lines 100-121): a given
result must have been asked for, the winner is applied by
`resolveUnknownCore`, the unknown slot is cleared unless in eval mode, and
an unresolved unknown value must not be left uncompared. -/
def resolveUnknown (cfg : Config) (point : StoredPoint)
    (result_optimal_unknown : Int) : Except Err StoredPoint :=
  if truthy result_optimal_unknown then
    if !otruthy point.fz_unknown then .error .unaskedFor
    else
      match resolveUnknownCore point result_optimal_unknown with
      | .error e => .error e
      | .ok p =>
        if cfg.eval then .ok p
        else .ok { p with fz_unknown := none, provider_unknown := none }
  else if otruthy point.fz_unknown then .error .notPerformed
  else .ok point

/-- Epoch change and offset rotation of `_store_comparison` (lines 123-139):
record the comparator, clear the epoch, draw `new_offset`, and re-mask the
surviving optimal and pending ciphertexts from the old offset to the new one
(in eval mode the ciphertexts are left as they are).  The source performs
the two independent conditional slot assignments sequentially; they are
written here as one record update. -/
def rotateOffset (cfg : Config) (producer : Producer) (point : StoredPoint)
    (new_offset : Int) : StoredPoint :=
  let old_offset := point.current_offset
  { point with
    last_comparator := some producer,
    current_comparators := ([] : List Producer),
    current_offset := new_offset,
    fz_optimal :=
      if otruthy point.fz_optimal && !cfg.eval then
        point.fz_optimal.map (fun c => c - old_offset + new_offset)
      else point.fz_optimal,
    fz_pending :=
      if otruthy point.fz_pending && !cfg.eval then
        point.fz_pending.map (fun c => c - old_offset + new_offset)
      else point.fz_pending }

/-- Per-point resolution logic of `_store_comparison` (lines 88-143), the
body guarded by `producer in point.current_comparators`: the active path
(slot verification, unknown resolution, offset rotation) when
`point.last_comparator != producer or config.EVAL`, otherwise the
redundant-epoch path that only checks nothing was submitted and removes the
producer from the epoch. -/
def resolvePoint (cfg : Config) (point : StoredPoint)
    (result_optimal_pending result_optimal_unknown : Int)
    (producer : Producer) (new_offset : Int) : Except Err StoredPoint :=
  if point.last_comparator != some producer || cfg.eval then
    match verifyPending point result_optimal_pending with
    | .error e => .error e
    | .ok p1 =>
      match resolveUnknown cfg p1 result_optimal_unknown with
      | .error e => .error e
      | .ok p2 => .ok (rotateOffset cfg producer p2 new_offset)
  else
    if truthy result_optimal_pending || truthy result_optimal_unknown then
      .error .unaskedFor
    else
      .ok { point with
        current_comparators := point.current_comparators.erase producer }

/-- `MapServer._store_comparison` (lines 65-149).  Returns the session after
the call together with the raised error, if any: the resolution commits on
success and rolls back on failure, while the lookup and open-request
failures raise without touching the session. -/
def store_comparison (cfg : Config) (s : Session)
    (comparison_result : Nat × Int × Int) (producer : Producer)
    (new_offset : Int) : Session × Option Err :=
  match findPoint s.pending comparison_result.1 with
  | none => (s, some .notFound)
  | some point =>
    if producer ∉ point.open_requests then (s, some .notRequested)
    else if producer ∈ point.current_comparators then
      match resolvePoint cfg point comparison_result.2.1 comparison_result.2.2
          producer new_offset with
      | .error e => (s.rollback, some e)
      | .ok p2 => (Session.clean (updatePoint s.pending p2), none)
    else (s, none)

/-- A prepared comparison tuple
`(point_id, fz_optimal, fz_pending, fz_unknown)`. -/
abbrev Comparison := Nat × Option Int × Option Int × Option Int

/-- `MapServer._prepare_comparisons` (lines 38-63): for each point, reveal
the three slot ciphertexts (or nothing when the producer is the last
comparator outside eval mode) and idempotently append the producer to
`open_requests` and `current_comparators`; one commit at the end. -/
def prepare_comparisons (cfg : Config) (s : Session) (pids : List Nat)
    (producer : Producer) : Session × List Comparison :=
  let step := fun (acc : DBState × List Comparison) (pid : Nat) =>
    match findPoint acc.1 pid with
    | none => acc
    | some point =>
      let comp : Comparison :=
        if point.last_comparator != some producer || cfg.eval then
          (pid, point.fz_optimal, point.fz_pending, point.fz_unknown)
        else (pid, none, none, none)
      let point := { point with
        open_requests :=
          if producer ∈ point.open_requests then point.open_requests
          else point.open_requests ++ [producer],
        current_comparators :=
          if producer ∈ point.current_comparators then
            point.current_comparators
          else point.current_comparators ++ [producer] }
      (updatePoint acc.1 point, acc.2 ++ [comp])
  let res := pids.foldl step (s.pending, [])
  (Session.clean res.1, res.2)

/-- Predicate of the point query in `get_comparisons_client` (lines
231-238): points of the map at one of the requested coordinates with a
stored optimal that the client neither contributed (as optimal or unknown
provider) nor already purchased. -/
def clientPoints (st : DBState) (mid : Nat) (ap_ae : List (Int × Int))
    (client : Producer) : List StoredPoint :=
  st.points.filter (fun p =>
    p.map_id == mid &&
    ap_ae.contains (p.ap, p.ae) &&
    p.fz_optimal.isSome &&
    p.provider_optimal != some client &&
    p.provider_unknown != some client &&
    !(p.point_vendees.contains client))

/-- `MapServer.get_comparisons_client` (lines 205-246): reject clients who
reverse-queried the map, select the relevant points, mark the map as
regular-queried, and delegate to `prepare_comparisons`. -/
def get_comparisons_client (cfg : Config) (s : Session) (mid : Nat)
    (ap_ae : List (Int × Int)) (producer : Producer) :
    Session × Except Err (List Comparison) :=
  match findMap s.pending mid with
  | none => (s, .error .notFound)
  | some map_key =>
    if (mapQuerists s.pending mid).any (fun q => q.producer == producer) then
      (s, .error .alreadyReverseQueried)
    else
      let points := clientPoints s.pending mid ap_ae producer
      if points.isEmpty then (s, .error .noRelevantPoints)
      else
        let st :=
          if producer ∈ map_key.past_requests then s.pending
          else updateMap s.pending
            { map_key with past_requests := map_key.past_requests ++ [producer] }
        let res := prepare_comparisons cfg ⟨s.committed, st⟩
          (points.map (fun p => p.id)) producer
        (res.1, .ok res.2)

/-- `MapServer._add_to_retrieval_db_producer` (lines 151-170): record the
retrieval transaction and commit. -/
def add_to_retrieval_db_producer (st : DBState) (points : List StoredPoint)
    (client : Producer) : DBState × RetrievalProducer :=
  let t : RetrievalProducer := ⟨client, points.length⟩
  ({ st with retrievals := st.retrievals ++ [t] }, t)

/-- Count retrieved points per optimal provider, in first-seen order
(the dict built in `_add_to_billing_db_producer`, lines 183-189). -/
def bumpProvider (l : List (Option Producer × Nat)) (pr : Option Producer) :
    List (Option Producer × Nat) :=
  match l with
  | [] => [(pr, 1)]
  | (q, c) :: rest =>
    if q = pr then (q, c + 1) :: rest else (q, c) :: bumpProvider rest pr

/-- Per-provider counts for a list of retrieved points. -/
def providerCounts (points : List StoredPoint) : List (Option Producer × Nat) :=
  points.foldl (fun acc p => bumpProvider acc p.provider_optimal) []

/-- `MapServer._add_to_billing_db_producer` (lines 172-203): one billing row
per contributing provider, committed in one batch. -/
def add_to_billing_db_producer (st : DBState) (points : List StoredPoint)
    (client : Producer) : DBState :=
  { st with billings := st.billings ++
      (providerCounts points).map (fun pc => ⟨pc.1, pc.2, client⟩) }

/-- Loop body of `get_points` (lines 264-272): store each comparison,
release the producer from `open_requests`, add them to `point_vendees`
(outside eval mode), and collect the touched point ids.  `offs k` is the
fresh offset drawn by the k-th `_store_comparison`. -/
def getPointsLoop (cfg : Config) (s : Session)
    (results : List (Nat × Int × Int)) (producer : Producer)
    (offs : Nat → Int) (k : Nat) (acc : List Nat) :
    Session × Except Err (List Nat) :=
  match results with
  | [] => (s, .ok acc)
  | r :: rest =>
    match store_comparison cfg s r producer (offs k) with
    | (s1, some e) => (s1, .error e)
    | (s1, none) =>
      match findPoint s1.pending r.1 with
      | none => (s1, .error .notFound)
      | some point =>
        let point := { point with
          open_requests := point.open_requests.erase producer,
          point_vendees :=
            if cfg.eval then point.point_vendees
            else point.point_vendees ++ [producer] }
        getPointsLoop cfg ⟨s1.committed, updatePoint s1.pending point⟩ rest
          producer offs (k + 1) (acc ++ [r.1])

/-- `MapServer.get_points` (lines 248-290): resolve the batch of comparison
results, commit, record retrieval and billing rows, and return each point's
optimal ciphertext with its own current offset homomorphically subtracted. -/
def get_points (cfg : Config) (s : Session)
    (comparison_results : List (Nat × Int × Int)) (producer : Producer)
    (offs : Nat → Int) :
    Session × Except Err (List (Int × Int × Int × Option Int)) :=
  match getPointsLoop cfg s comparison_results producer offs 0 [] with
  | (s1, .error e) => (s1.rollback, .error e)
  | (s1, .ok pids) =>
    let s2 := s1.commit
    let points := pids.filterMap (findPoint s2.pending)
    let res := add_to_retrieval_db_producer s2.pending points producer
    let st := add_to_billing_db_producer res.1 points producer
    let s3 := Session.clean st
    match points.head? with
    | none => (s3, .error .indexErr)
    | some _ =>
      match points.mapM (fun p =>
          match p.fz_optimal with
          | some c => Except.ok (p.ap, p.ae, c - p.current_offset, p.usage_total)
          | none => (Except.error Err.typeErr :
              Except Err (Int × Int × Int × Option Int))) with
      | .error e => (s3, .error e)
      | .ok out => (s3, .ok out)

/-- Loop body of `store_records` (lines 625-667): store each comparison,
release the producer, then offset-adjust and store the contributed `fz`
into the unknown (or empty optimal) slot and homomorphically accumulate
`usage` into the point-level and provider-level totals. -/
def storeRecordsLoop (cfg : Config) (s : Session)
    (items : List (Nat × Int × Int × Int × Int)) (producer : Producer)
    (offs : Nat → Int) (k : Nat) : Session × Option Err :=
  match items with
  | [] => (s, none)
  | item :: rest =>
    let pid := item.1
    let results : Nat × Int × Int := (pid, item.2.1, item.2.2.1)
    let fz := item.2.2.2.1
    let usage := item.2.2.2.2
    match store_comparison cfg s results producer (offs k) with
    | (s1, some e) => (s1, some e)
    | (s1, none) =>
      match findPoint s1.pending pid with
      | none => (s1, some .notFound)
      | some point =>
        let point := { point with
          open_requests := point.open_requests.erase producer }
        match findMap s1.pending point.map_id with
        | none => (s1, some .notFound)
        | some _ =>
          match findUsage s1.pending point.map_id producer with
          | none => (s1, some .notFound)
          | some map_usage =>
            let point :=
              if truthy fz then
                let fzShifted := fz + point.current_offset
                if otruthy point.fz_optimal then
                  { point with
                    fz_unknown := some fzShifted,
                    provider_unknown := some producer }
                else
                  { point with
                    fz_optimal := some fzShifted,
                    provider_optimal := some producer }
              else point
            let pu :=
              if truthy usage then
                (some (if otruthy point.usage_total then
                    point.usage_total.getD 0 + usage
                  else usage),
                 some (if otruthy map_usage.usage_provider then
                    map_usage.usage_provider.getD 0 + usage
                  else usage))
              else (point.usage_total, map_usage.usage_provider)
            let point := { point with usage_total := pu.1 }
            let map_usage := { map_usage with usage_provider := pu.2 }
            let st := updateUsage (updatePoint s1.pending point) map_usage
            storeRecordsLoop cfg ⟨s1.committed, st⟩ rest producer offs (k + 1)

/-- `MapServer.store_records` (lines 608-673): resolve and store the whole
batch, committing at the end and rolling back the uncommitted remainder on
any failure. -/
def store_records (cfg : Config) (s : Session)
    (comparison_results_with_values : List (Nat × Int × Int × Int × Int))
    (producer : Producer) (offs : Nat → Int) : Session × Except Err Unit :=
  match storeRecordsLoop cfg s comparison_results_with_values producer offs 0 with
  | (s1, some e) => (s1.rollback, .error e)
  | (s1, none) => (s1.commit, .ok ())

/-- Point-creation loop of `get_comparisons_provider` (lines 578-592):
look up each requested coordinate and lazily insert a fresh point with a
random initial offset (`offs` indexed by creation order); returns the
state, the collected point ids, and the number of offsets drawn. -/
def providerPointsLoop (st : DBState) (mid : Nat) (ap_ae : List (Int × Int))
    (offs : Nat → Int) (k : Nat) (acc : List Nat) :
    DBState × List Nat × Nat :=
  match ap_ae with
  | [] => (st, acc, k)
  | (ap, ae) :: rest =>
    match findPointByCoord st mid ap ae with
    | some point => providerPointsLoop st mid rest offs k (acc ++ [point.id])
    | none =>
      let point : StoredPoint :=
        { id := st.nextPointId, map_id := mid, ap := ap, ae := ae,
          usage_total := none, fz_optimal := none, provider_optimal := none,
          fz_pending := none, provider_pending := none, fz_unknown := none,
          provider_unknown := none, open_requests := [],
          current_offset := offs k, current_comparators := [],
          last_comparator := none, point_vendees := [] }
      let st := { st with
        points := st.points ++ [point],
        nextPointId := st.nextPointId + 1 }
      providerPointsLoop st mid rest offs (k + 1) (acc ++ [point.id])

/-- `MapServer.get_comparisons_provider` (lines 516-606): lazily create the
map (rejecting a key-modulus mismatch for an existing map and non-unique
id/name combinations), reject providers holding an unconsumed preview
voucher, lazily create the `MapUsage` row and the requested points, mark
the map regular-queried, and delegate to `prepare_comparisons`. -/
def get_comparisons_provider (cfg : Config) (s : Session) (mid : Nat)
    (map_name : String × String × String) (n : Nat)
    (ap_ae : List (Int × Int)) (producer : Producer) (offs : Nat → Int) :
    Session × Except Err (List Comparison) :=
  let machine := map_name.1
  let material := map_name.2.1
  let tool := map_name.2.2
  let found :=
    match findMapByName s.pending mid machine material tool with
    | some mk => Except.ok (mk, s)
    | none =>
      if s.pending.maps.any (fun m =>
          m.map_id == mid ||
          (m.machine == machine && m.material == material && m.tool == tool))
      then Except.error Err.nonUniqueMap
      else
        let mk : MapKey :=
          { map_id := mid, machine := machine, material := material,
            tool := tool, public_key_n := n, first_provider := producer,
            past_requests := [] }
        Except.ok (mk, Session.clean { s.pending with maps := s.pending.maps ++ [mk] })
  match found with
  | .error e => (s.rollback, .error e)
  | .ok (map_key, s1) =>
    if (findMapByName s.pending mid machine material tool).isSome &&
        map_key.public_key_n != n then
      (s1, .error .publicKeyMismatch)
    else if (mapQuerists s1.pending mid).any (fun q => q.producer == producer)
    then (s1, .error .reverseQueriedNoOffset)
    else
      let st1 :=
        match findUsage s1.pending mid producer with
        | some _ => s1.pending
        | none =>
          { s1.pending with usages := s1.pending.usages ++
              [{ map_id := mid, provider := producer, usage_provider := none }] }
      let res := providerPointsLoop st1 mid ap_ae offs 0 []
      let s2 := Session.clean res.1
      let st2 :=
        if producer ∈ map_key.past_requests then s2.pending
        else updateMap s2.pending
          { map_key with past_requests := map_key.past_requests ++ [producer] }
      let out := prepare_comparisons cfg ⟨s2.committed, st2⟩ res.2.1 producer
      (out.1, .ok out.2)

/-- The point query of `get_previews` (lines 362-364): every point of the
map with a stored optimal ciphertext. -/
def previewPoints (st : DBState) (mid : Nat) : List StoredPoint :=
  st.points.filter (fun p => p.map_id == mid && p.fz_optimal.isSome)

/-- A preview for one map: map id and the points with shifted optimal
ciphertexts `(ap, ae, shifted_fz_ct, usage_ct)`. -/
abbrev Preview := Nat × List (Int × Int × Int × Option Int)

/-- Accumulator of the `get_previews` loop: the session's pending state
(voucher rows appended via the relationship are visible immediately),
the previews built so far, the pending billing rows, and the index of the
next random draw. -/
structure PreviewAcc where
  pending : DBState
  previews : List Preview
  billing : List PreviewBilling
  k : Nat

/-- Per-map loop of `get_previews` (lines 353-389): reject double previews
and preview/regular-query mixing, skip maps without qualifying points,
shift every point's optimal ciphertext to the shared draw `offs acc.k`,
and register the `ReverseQuerist` voucher.  Note the voucher records the
leaked inner-loop variable `offset`, i.e. `preview_offset` minus the LAST
point's `current_offset` (line 382 reuses `offset` from line 373), not the
shared `preview_offset` itself. -/
def previewsLoop (cfg : Config) (client : Producer) (offs : Nat → Int)
    (acc : PreviewAcc) : List Nat → Except Err PreviewAcc
  | [] => .ok acc
  | mid :: rest =>
    match findMap acc.pending mid with
    | none => .error .mapNotStored
    | some map_key =>
      if (mapQuerists acc.pending mid).any (fun q => q.producer == client) then
        .error .alreadyReverseQueried
      else if client ∈ map_key.past_requests then
        .error .alreadyRegularQueried
      else
        let points := previewPoints acc.pending mid
        if points.isEmpty then previewsLoop cfg client offs acc rest
        else
          let preview_offset := offs acc.k
          let preview_points := points.map (fun p =>
            (p.ap, p.ae, p.fz_optimal.getD 0 + (preview_offset - p.current_offset),
              p.usage_total))
          let offset := preview_offset -
            ((points.getLast?.map (fun p => p.current_offset)).getD 0)
          let querist : ReverseQuerist :=
            { map_id := if cfg.eval then none else some mid,
              producer := client, point_count := points.length,
              offset := offset, tool := map_key.tool }
          let pending := { acc.pending with
            reverseQuerists := acc.pending.reverseQuerists ++ [querist] }
          previewsLoop cfg client offs
            { pending := pending,
              previews := acc.previews ++ [(mid, preview_points)],
              billing := acc.billing ++ [⟨client, mid⟩],
              k := acc.k + 1 } rest

/-- `MapServer.get_previews` (lines 332-403): run the per-map loop, fail if
no map yielded a preview, and commit the voucher and billing rows.  A
failure raises out of the call; the uncommitted voucher appends are
discarded with the session at request teardown. -/
def get_previews (cfg : Config) (s : Session) (map_ids : List Nat)
    (producer : Producer) (offs : Nat → Int) :
    Session × Except Err (List Preview) :=
  match previewsLoop cfg producer offs ⟨s.pending, [], [], 0⟩ map_ids with
  | .error e => (s.rollback, .error e)
  | .ok acc =>
    if acc.previews.isEmpty then (s.rollback, .error .noRelevantPoints)
    else
      let st := { acc.pending with
        previewBillings := acc.pending.previewBillings ++ acc.billing }
      (Session.clean st, .ok acc.previews)

/-- `MapServer.get_preview_info` (lines 476-514): single-use retrieval of
the voucher's offset and tool name; deletes the voucher, marks the map
regular-queried, and records an offset-billing row. -/
def get_preview_info (s : Session) (mid : Nat) (producer : Producer) :
    Session × Except Err (Int × String) :=
  match findMap s.pending mid with
  | none => (s, .error .mapNotStored)
  | some map_key =>
    match s.pending.reverseQuerists.find?
        (fun q => q.map_id == some mid && q.producer == producer) with
    | none => (s, .error .neverReverseQueried)
    | some rq =>
      let st := { s.pending with
        reverseQuerists := s.pending.reverseQuerists.erase rq }
      let st := updateMap st
        { map_key with past_requests := map_key.past_requests ++ [producer] }
      let st := { st with
        offsetBillings := st.offsetBillings ++ [⟨producer, rq.point_count⟩] }
      (Session.clean st, .ok (rq.offset, rq.tool))

/-- Per-point loop of `store_records_plaintext` (lines 734-772): lazily
insert missing points with the provided values and zero offset; for stored
points, in the Paillier variant route `fz` into the unknown slot and
homomorphically accumulate usage, otherwise keep the larger plaintext `fz`
and accumulate usage by plain addition (Python raises `TypeError` when a
stored column is `NULL` in the arithmetic). -/
def storeRecordsPlaintextLoop (cfg : Config) (st : DBState) (mid : Nat)
    (provider : Producer) : List (Int × Int × Int × Int) → DBState × Option Err
  | [] => (st, none)
  | (ap, ae, fz, usage) :: rest =>
    match findPointByCoord st mid ap ae with
    | none =>
      let point : StoredPoint :=
        { id := st.nextPointId, map_id := mid, ap := ap, ae := ae,
          usage_total := some usage, fz_optimal := some fz,
          provider_optimal := some provider, fz_pending := none,
          provider_pending := none, fz_unknown := none,
          provider_unknown := none, open_requests := [],
          current_offset := 0, current_comparators := [],
          last_comparator := none, point_vendees := [] }
      let st := { st with
        points := st.points ++ [point],
        nextPointId := st.nextPointId + 1 }
      storeRecordsPlaintextLoop cfg st mid provider rest
    | some point =>
      let fzStep : Except Err StoredPoint :=
        if truthy fz then
          if cfg.usePaillier then
            .ok { point with
              fz_unknown := some fz,
              provider_unknown := some provider }
          else
            match point.fz_optimal with
            | none => .error .typeErr
            | some o =>
              if fz > o then
                .ok { point with
                  fz_optimal := some fz,
                  provider_optimal := some provider }
              else .ok point
        else .ok point
      match fzStep with
      | .error e => (st, some e)
      | .ok point =>
        let usageStep : Except Err (StoredPoint × Option Ct) :=
          if truthy usage then
            match point.usage_total, (findUsage st mid provider).bind
                (fun u => u.usage_provider) with
            | some t, some p =>
              .ok ({ point with usage_total := some (t + usage) },
                some (p + usage))
            | _, _ => .error .typeErr
          else .ok (point, (findUsage st mid provider).bind
            (fun u => u.usage_provider))
        match usageStep with
        | .error e => (st, some e)
        | .ok (point, up) =>
          let st := updatePoint st point
          let st :=
            match findUsage st mid provider with
            | none => st
            | some mu => updateUsage st { mu with usage_provider := up }
          storeRecordsPlaintextLoop cfg st mid provider rest

/-- Commit-or-rollback tail of `store_records_plaintext` (lines 773-779):
commit the per-point loop's state, rolling the session back on failure. -/
def storeRecordsPlaintextFinish (cfg : Config) (s2 : Session) (mid : Nat)
    (producer : Producer) (points : List (Int × Int × Int × Int)) :
    Session × Except Err Unit :=
  match storeRecordsPlaintextLoop cfg s2.pending mid producer points with
  | (_, some e) => (s2.rollback, .error e)
  | (st, none) => (Session.clean st, .ok ())

/-- `MapServer.store_records_plaintext` (lines 675-781): bypass variant.
Guards against the secure scheme, lazily creates the map (without any
key-modulus check for an existing map) and the `MapUsage` row (initialized
to zero), then stores the plaintext points, committing at the end. -/
def store_records_plaintext (cfg : Config) (s : Session) (mid : Nat)
    (map_name : String × String × String) (n : Nat)
    (points : List (Int × Int × Int × Int)) (producer : Producer) :
    Session × Except Err Unit :=
  if cfg.usePaillier && cfg.valid then (s, .error .plaintextNotAllowed)
  else
    let machine := map_name.1
    let material := map_name.2.1
    let tool := map_name.2.2
    let found :=
      match findMapByName s.pending mid machine material tool with
      | some mk => Except.ok (mk, s)
      | none =>
        if s.pending.maps.any (fun m =>
            m.map_id == mid ||
            (m.machine == machine && m.material == material && m.tool == tool))
        then Except.error Err.nonUniqueMap
        else
          let mk : MapKey :=
            { map_id := mid, machine := machine, material := material,
              tool := tool, public_key_n := n, first_provider := producer,
              past_requests := [] }
          Except.ok (mk, Session.clean { s.pending with maps := s.pending.maps ++ [mk] })
    match found with
    | .error e => (s.rollback, .error e)
    | .ok (_, s1) =>
      let s2 :=
        match findUsage s1.pending mid producer with
        | some _ => s1
        | none =>
          Session.clean { s1.pending with
            usages := s1.pending.usages ++
              [({ map_id := mid, provider := producer,
                  usage_provider := some 0 } : MapUsage)] }
      storeRecordsPlaintextFinish cfg s2 mid producer points

/-! Frame lemmas for the comparison engine. -/

/-- Slot verification only touches the pending slot. -/
theorem verifyPending_frame (pt p1 : StoredPoint) (rp : Int)
    (h : verifyPending pt rp = .ok p1) :
    p1.fz_optimal = pt.fz_optimal ∧ p1.provider_optimal = pt.provider_optimal ∧
    p1.fz_unknown = pt.fz_unknown ∧ p1.provider_unknown = pt.provider_unknown ∧
    p1.current_offset = pt.current_offset ∧
    p1.point_vendees = pt.point_vendees ∧
    p1.last_comparator = pt.last_comparator := by
  unfold verifyPending at h
  split_ifs at h <;> (try cases h) <;> simp

/-- The winner-application step without a promotion (the incumbent optimal
won) leaves the optimal slot, the offset and the vendee list unchanged. -/
theorem resolveUnknownCore_frame (pt p : StoredPoint) (ru : Int)
    (hne : pt.fz_unknown ≠ some ru)
    (h : resolveUnknownCore pt ru = .ok p) :
    p.fz_optimal = pt.fz_optimal ∧ p.current_offset = pt.current_offset ∧
    p.point_vendees = pt.point_vendees := by
  unfold resolveUnknownCore at h
  rw [if_neg hne] at h
  split_ifs at h <;> (try cases h) <;> simp

/-- The winner-application step with a promotion produces exactly the
shifted-slot record. -/
theorem resolveUnknownCore_promotion (pt p : StoredPoint) (ru : Int)
    (hp : pt.fz_unknown = some ru)
    (h : resolveUnknownCore pt ru = .ok p) :
    p = { pt with
      fz_pending := pt.fz_optimal,
      provider_pending := pt.provider_optimal,
      fz_optimal := some ru,
      provider_optimal := pt.provider_unknown,
      point_vendees := [] } := by
  unfold resolveUnknownCore at h
  rw [if_pos hp] at h
  cases h
  rfl

/-- Inversion of a successful unknown-resolution step. -/
theorem resolveUnknown_ok_inv (cfg : Config) (pt p2 : StoredPoint) (ru : Int)
    (h : resolveUnknown cfg pt ru = .ok p2) :
    (truthy ru = true ∧ otruthy pt.fz_unknown = true ∧
      ∃ p, resolveUnknownCore pt ru = .ok p ∧
        p2 = (if cfg.eval then p
          else { p with fz_unknown := none, provider_unknown := none })) ∨
    (truthy ru = false ∧ otruthy pt.fz_unknown = false ∧ p2 = pt) := by
  unfold resolveUnknown at h
  by_cases ht : truthy ru = true
  · rw [if_pos ht] at h
    by_cases hu : otruthy pt.fz_unknown = true
    · rw [if_neg (by simp [hu])] at h
      left
      refine ⟨ht, hu, ?_⟩
      cases hc : resolveUnknownCore pt ru with
      | error e =>
        rw [hc] at h
        simp at h
      | ok p =>
        rw [hc] at h
        dsimp only at h
        refine ⟨p, rfl, ?_⟩
        by_cases he : cfg.eval = true
        · rw [if_pos he] at h
          rw [if_pos he]
          cases h
          rfl
        · rw [if_neg he] at h
          rw [if_neg he]
          cases h
          rfl
    · rw [if_pos (by simp [hu])] at h
      cases h
  · rw [if_neg ht] at h
    by_cases hu : otruthy pt.fz_unknown = true
    · rw [if_pos hu] at h
      cases h
    · rw [if_neg hu] at h
      cases h
      right
      exact ⟨by simpa using ht, by simpa using hu, rfl⟩

/-- Unknown resolution without a promotion leaves the optimal slot, the
offset and the vendee list unchanged. -/
theorem resolveUnknown_frame (cfg : Config) (pt p2 : StoredPoint) (ru : Int)
    (h : resolveUnknown cfg pt ru = .ok p2)
    (hnp : ru = 0 ∨ pt.fz_unknown ≠ some ru) :
    p2.fz_optimal = pt.fz_optimal ∧ p2.current_offset = pt.current_offset ∧
    p2.point_vendees = pt.point_vendees := by
  rcases resolveUnknown_ok_inv cfg pt p2 ru h with
    ⟨ht, hu, p, hc, hp2⟩ | ⟨ht, hu, hp2⟩
  · rcases hnp with hz | hne
    · subst hz; simp [truthy] at ht
    · have hf := resolveUnknownCore_frame pt p ru hne hc
      subst hp2
      split_ifs <;> simp [hf.1, hf.2.1, hf.2.2]
  · subst hp2; exact ⟨rfl, rfl, rfl⟩

/-- Unknown promotion through `resolveUnknown`: the unknown ciphertext
becomes the optimal, the old optimal shifts to pending, and the vendee
list is cleared. -/
theorem resolveUnknown_promotion (cfg : Config) (pt p2 : StoredPoint) (ru : Int)
    (h : resolveUnknown cfg pt ru = .ok p2)
    (hru : ru ≠ 0) (hp : pt.fz_unknown = some ru) :
    p2.fz_optimal = some ru ∧ p2.provider_optimal = pt.provider_unknown ∧
    p2.fz_pending = pt.fz_optimal ∧ p2.provider_pending = pt.provider_optimal ∧
    p2.current_offset = pt.current_offset ∧ p2.point_vendees = [] := by
  rcases resolveUnknown_ok_inv cfg pt p2 ru h with
    ⟨ht, hu, p, hc, hp2⟩ | ⟨ht, hu, hp2⟩
  · have hpr := resolveUnknownCore_promotion pt p ru hp hc
    subst hpr
    subst hp2
    split_ifs <;> simp
  · exfalso
    rw [hp] at hu
    simp [otruthy, hru] at hu

/-- Offset rotation stores the drawn offset and resets the epoch fields. -/
theorem rotateOffset_fields (cfg : Config) (producer : Producer)
    (p : StoredPoint) (o2 : Int) :
    (rotateOffset cfg producer p o2).current_offset = o2 ∧
    (rotateOffset cfg producer p o2).last_comparator = some producer ∧
    (rotateOffset cfg producer p o2).current_comparators = [] ∧
    (rotateOffset cfg producer p o2).point_vendees = p.point_vendees := by
  unfold rotateOffset
  simp

/-- Offset rotation outside eval mode re-masks a surviving nonzero optimal
ciphertext from the old offset to the new one. -/
theorem rotateOffset_optimal (cfg : Config) (producer : Producer)
    (p : StoredPoint) (o2 c : Int) (heval : cfg.eval = false) (hc : c ≠ 0)
    (hopt : p.fz_optimal = some c) :
    (rotateOffset cfg producer p o2).fz_optimal =
      some (c - p.current_offset + o2) := by
  unfold rotateOffset
  simp [hopt, otruthy, hc, heval]

/-- Offset rotation outside eval mode re-masks a surviving nonzero pending
ciphertext from the old offset to the new one. -/
theorem rotateOffset_pending (cfg : Config) (producer : Producer)
    (p : StoredPoint) (o2 d : Int) (heval : cfg.eval = false) (hd : d ≠ 0)
    (hpen : p.fz_pending = some d) :
    (rotateOffset cfg producer p o2).fz_pending =
      some (d - p.current_offset + o2) := by
  unfold rotateOffset
  simp [hpen, otruthy, hd, heval]

/-- Inversion of a successful pending-verification step. -/
theorem verifyPending_ok_inv (pt p1 : StoredPoint) (rp : Int)
    (h : verifyPending pt rp = .ok p1) :
    (truthy rp = true ∧ otruthy pt.fz_pending = true ∧
      pt.fz_optimal = some rp ∧
      p1 = { pt with fz_pending := none, provider_pending := none }) ∨
    (truthy rp = false ∧ otruthy pt.fz_pending = false ∧ p1 = pt) := by
  unfold verifyPending at h
  by_cases ht : truthy rp = true
  · rw [if_pos ht] at h
    by_cases hp : otruthy pt.fz_pending = true
    · rw [if_neg (by simp [hp])] at h
      by_cases ho : pt.fz_optimal = some rp
      · rw [if_neg (by simp [ho])] at h
        cases h
        exact Or.inl ⟨ht, hp, ho, rfl⟩
      · rw [if_pos (by simpa using ho)] at h
        cases h
    · rw [if_pos (by simp [hp])] at h
      cases h
  · rw [if_neg ht] at h
    by_cases hp : otruthy pt.fz_pending = true
    · rw [if_pos hp] at h
      cases h
    · rw [if_neg hp] at h
      cases h
      exact Or.inr ⟨by simpa using ht, by simpa using hp, rfl⟩

/-- Inversion of a successful active-path resolution: it factors as
pending verification, unknown resolution, and offset rotation. -/
theorem resolvePoint_active_ok_inv (cfg : Config) (pt pt2 : StoredPoint)
    (rp ru : Int) (producer : Producer) (o2 : Int)
    (hact : (pt.last_comparator != some producer || cfg.eval) = true)
    (h : resolvePoint cfg pt rp ru producer o2 = .ok pt2) :
    ∃ p1 p2, verifyPending pt rp = .ok p1 ∧
      resolveUnknown cfg p1 ru = .ok p2 ∧
      pt2 = rotateOffset cfg producer p2 o2 := by
  unfold resolvePoint at h
  rw [if_pos hact] at h
  cases hv : verifyPending pt rp with
  | error e =>
    rw [hv] at h
    simp at h
  | ok p1 =>
    rw [hv] at h
    dsimp only at h
    cases hu : resolveUnknown cfg p1 ru with
    | error e =>
      rw [hu] at h
      simp at h
    | ok p2 =>
      rw [hu] at h
      dsimp only at h
      cases h
      exact ⟨p1, p2, rfl, hu, rfl⟩

/-- Consistency of a pending-slot submission: a result is given exactly
when a pending value is stored, and a given result names the stored
optimal ciphertext. -/
def pendingConsistent (pt : StoredPoint) (rp : Int) : Prop :=
  if rp = 0 then otruthy pt.fz_pending = false
  else otruthy pt.fz_pending = true ∧ pt.fz_optimal = some rp

/-- A consistent pending submission passes the verification step. -/
theorem verifyPending_of_consistent (pt : StoredPoint) (rp : Int)
    (h : pendingConsistent pt rp) :
    ∃ p1, verifyPending pt rp = .ok p1 := by
  unfold pendingConsistent at h
  unfold verifyPending
  by_cases hz : rp = 0
  · rw [if_pos hz] at h
    refine ⟨pt, ?_⟩
    rw [if_neg (by simp [truthy, hz]), if_neg (by simp [h])]
  · rw [if_neg hz] at h
    refine ⟨{ pt with fz_pending := none, provider_pending := none }, ?_⟩
    rw [if_pos (by simp [truthy, hz]), if_neg (by simp [h.1]),
      if_neg (by simp [h.2])]

/-- C5: for every (point, producer) pair such that the producer is not in
the point's `open_requests` set, `store_comparison` fails with the
did-not-properly-request validation error and leaves the session — in
particular the point — unchanged. -/
theorem c5_open_request_gating (cfg : Config) (s : Session) (pid : Nat)
    (rp ru : Int) (producer : Producer) (o2 : Int) (pt : StoredPoint)
    (hfind : findPoint s.pending pid = some pt)
    (hmem : producer ∉ pt.open_requests) :
    store_comparison cfg s (pid, rp, ru) producer o2 =
      (s, some .notRequested) := by
  unfold store_comparison
  dsimp only
  rw [hfind]
  dsimp only
  rw [if_pos hmem]

/-- C10: for every point and producer such that the producer is in the
point's `open_requests` but not in its `current_comparators`,
`_store_comparison` accepts the submission without raising, performs no
validation of the submitted result values, and leaves the session — hence
every field of the point — unchanged. -/
theorem c10_stale_epoch_noop (cfg : Config) (s : Session) (pid : Nat)
    (rp ru : Int) (producer : Producer) (o2 : Int) (pt : StoredPoint)
    (hfind : findPoint s.pending pid = some pt)
    (hopen : producer ∈ pt.open_requests)
    (hcur : producer ∉ pt.current_comparators) :
    store_comparison cfg s (pid, rp, ru) producer o2 = (s, none) := by
  unfold store_comparison
  dsimp only
  rw [hfind]
  dsimp only
  rw [if_neg (not_not_intro hopen), if_neg hcur]

/-- C2: a successful non-redundant comparison (producer differs from
`last_comparator`, non-eval mode) stores the drawn offset `o2` and
re-masks the surviving slot ciphertexts so that decrypting the new stored
optimal (and pending, after a promotion) ciphertext and subtracting `o2`
yields the same true value that was masked under the old offset. -/
theorem c2_offset_remask (cfg : Config) (s : Session) (pid : Nat)
    (rp ru : Int) (producer : Producer) (o2 : Int) (pt pt2 : StoredPoint)
    (c : Int)
    (heval : cfg.eval = false)
    (hfind : findPoint s.pending pid = some pt)
    (hopen : producer ∈ pt.open_requests)
    (hcur : producer ∈ pt.current_comparators)
    (hlast : pt.last_comparator ≠ some producer)
    (hres : resolvePoint cfg pt rp ru producer o2 = .ok pt2)
    (hopt : pt.fz_optimal = some c) (hc : c ≠ 0) :
    store_comparison cfg s (pid, rp, ru) producer o2 =
      (Session.clean (updatePoint s.pending pt2), none) ∧
    pt2.current_offset = o2 ∧
    ((ru = 0 ∨ pt.fz_unknown ≠ some ru) → ∀ v, c = v + pt.current_offset →
      ∃ d, pt2.fz_optimal = some d ∧ decrypt d - o2 = v) ∧
    (∀ u, u ≠ 0 → pt.fz_unknown = some u → ru = u →
      (∃ d, pt2.fz_optimal = some d ∧
        decrypt d - o2 = u - pt.current_offset) ∧
      (∃ d, pt2.fz_pending = some d ∧ ∀ v, c = v + pt.current_offset →
        decrypt d - o2 = v)) := by
  have hact : (pt.last_comparator != some producer || cfg.eval) = true := by
    simp [hlast]
  obtain ⟨p1, p2, hv, hu, hrot⟩ :=
    resolvePoint_active_ok_inv cfg pt pt2 rp ru producer o2 hact hres
  have hF := verifyPending_frame pt p1 rp hv
  refine ⟨?_, ?_, ?_, ?_⟩
  · unfold store_comparison
    dsimp only
    rw [hfind]
    dsimp only
    rw [if_neg (not_not_intro hopen), if_pos hcur, hres]
  · subst hrot
    exact (rotateOffset_fields cfg producer p2 o2).1
  · intro hnp v hval
    have hFu := resolveUnknown_frame cfg p1 p2 ru hu (by
      rcases hnp with hz | hne
      · exact Or.inl hz
      · exact Or.inr (by rw [hF.2.2.1]; exact hne))
    have hp2opt : p2.fz_optimal = some c := by rw [hFu.1, hF.1, hopt]
    have hoff : p2.current_offset = pt.current_offset := by
      rw [hFu.2.1, hF.2.2.2.2.1]
    refine ⟨c - pt.current_offset + o2, ?_, ?_⟩
    · subst hrot
      calc (rotateOffset cfg producer p2 o2).fz_optimal
          = some (c - p2.current_offset + o2) :=
            rotateOffset_optimal cfg producer p2 o2 c heval hc hp2opt
        _ = some (c - pt.current_offset + o2) := by rw [hoff]
    · subst hval
      simp only [decrypt]
      ring
  · intro u hu0 hunk hruu
    subst hruu
    have hpu : p1.fz_unknown = some ru := by rw [hF.2.2.1]; exact hunk
    have hprom := resolveUnknown_promotion cfg p1 p2 ru hu hu0 hpu
    have hoff : p2.current_offset = pt.current_offset := by
      rw [hprom.2.2.2.2.1, hF.2.2.2.2.1]
    constructor
    · refine ⟨ru - pt.current_offset + o2, ?_, ?_⟩
      · subst hrot
        calc (rotateOffset cfg producer p2 o2).fz_optimal
            = some (ru - p2.current_offset + o2) :=
              rotateOffset_optimal cfg producer p2 o2 ru heval hu0 hprom.1
          _ = some (ru - pt.current_offset + o2) := by rw [hoff]
      · simp only [decrypt]
        ring
    · have hpen : p2.fz_pending = some c := by rw [hprom.2.2.1, hF.1, hopt]
      refine ⟨c - pt.current_offset + o2, ?_, ?_⟩
      · subst hrot
        calc (rotateOffset cfg producer p2 o2).fz_pending
            = some (c - p2.current_offset + o2) :=
              rotateOffset_pending cfg producer p2 o2 c heval hc hpen
          _ = some (c - pt.current_offset + o2) := by rw [hoff]
      · intro v hval
        subst hval
        simp only [decrypt]
        ring

/-- C4: in the active path, a submission whose unknown result names the
incumbent optimal as the winner while the incumbent's provider equals the
unknown's provider is rejected, for every configuration of the pending
slot and pending result; whenever the pending step itself is consistent,
the error is precisely the sub-optimal-value integrity violation. -/
theorem c4_no_downgrade (cfg : Config) (s : Session) (pid : Nat)
    (rp ru : Int) (producer : Producer) (o2 : Int) (pt : StoredPoint)
    (heval : cfg.eval = false)
    (hfind : findPoint s.pending pid = some pt)
    (hopen : producer ∈ pt.open_requests)
    (hcur : producer ∈ pt.current_comparators)
    (hlast : pt.last_comparator ≠ some producer)
    (hru : ru ≠ 0)
    (hwin : pt.fz_optimal = some ru)
    (hnotu : pt.fz_unknown ≠ some ru)
    (hex : otruthy pt.fz_unknown = true)
    (hprov : pt.provider_optimal = pt.provider_unknown) :
    ∃ e, store_comparison cfg s (pid, rp, ru) producer o2 =
        (s.rollback, some e) ∧
      (pendingConsistent pt rp → e = .subOptimal) := by
  have hact : (pt.last_comparator != some producer || cfg.eval) = true := by
    simp [hlast]
  have hres : ∃ e, resolvePoint cfg pt rp ru producer o2 = .error e ∧
      (pendingConsistent pt rp → e = .subOptimal) := by
    cases hv : verifyPending pt rp with
    | error e =>
      refine ⟨e, ?_, ?_⟩
      · unfold resolvePoint
        rw [if_pos hact, hv]
      · intro hcons
        obtain ⟨p1, hp1⟩ := verifyPending_of_consistent pt rp hcons
        rw [hv] at hp1
        cases hp1
    | ok p1 =>
      have hF := verifyPending_frame pt p1 rp hv
      have hcoreErr : resolveUnknown cfg p1 ru = .error .subOptimal := by
        unfold resolveUnknown
        rw [if_pos (by simp [truthy, hru])]
        rw [if_neg (by simp [hF.2.2.1, hex])]
        have hcore : resolveUnknownCore p1 ru = .error .subOptimal := by
          unfold resolveUnknownCore
          rw [if_neg (by rw [hF.2.2.1]; exact hnotu)]
          rw [if_neg (by rw [hF.1]; simp [hwin])]
          rw [if_pos (by rw [hF.2.1, hF.2.2.2.1]; exact hprov)]
        rw [hcore]
      refine ⟨.subOptimal, ?_, fun _ => rfl⟩
      unfold resolvePoint
      rw [if_pos hact, hv]
      dsimp only
      rw [hcoreErr]
  obtain ⟨e, he, hce⟩ := hres
  refine ⟨e, ?_, hce⟩
  unfold store_comparison
  dsimp only
  rw [hfind]
  dsimp only
  rw [if_neg (not_not_intro hopen), if_pos hcur, he]

/-- C7: a producer recorded in a point's vendee list is excluded from the
points selected by `get_comparisons_client` for any map and coordinate
set; the vendee list is cleared exactly by a successful unknown-promotion
(the `fz_optimal` value change) and preserved by every other successful
resolution. -/
theorem c7_vendee_exclusion (st : DBState) (mid : Nat)
    (ap_ae : List (Int × Int)) (client : Producer) (cfg : Config)
    (pt pt2 : StoredPoint) (rp ru : Int) (producer : Producer) (o2 : Int) :
    (∀ q ∈ clientPoints st mid ap_ae client, client ∉ q.point_vendees) ∧
    (resolvePoint cfg pt rp ru producer o2 = .ok pt2 →
      ((ru ≠ 0 ∧ pt.fz_unknown = some ru) → pt2.point_vendees = []) ∧
      ((ru = 0 ∨ pt.fz_unknown ≠ some ru) →
        pt2.point_vendees = pt.point_vendees)) := by
  constructor
  · intro q hq
    unfold clientPoints at hq
    rw [List.mem_filter] at hq
    simp only [Bool.and_eq_true, Bool.not_eq_true'] at hq
    intro hmem
    have hc := hq.2.2
    simp_all
  · intro hok
    constructor
    · rintro ⟨hru, hunk⟩
      by_cases hact : (pt.last_comparator != some producer || cfg.eval) = true
      · obtain ⟨p1, p2, hv, hu, hrot⟩ :=
          resolvePoint_active_ok_inv cfg pt pt2 rp ru producer o2 hact hok
        have hF := verifyPending_frame pt p1 rp hv
        have hpu : p1.fz_unknown = some ru := by rw [hF.2.2.1]; exact hunk
        have hprom := resolveUnknown_promotion cfg p1 p2 ru hu hru hpu
        subst hrot
        rw [(rotateOffset_fields cfg producer p2 o2).2.2.2]
        exact hprom.2.2.2.2.2
      · exfalso
        unfold resolvePoint at hok
        rw [if_neg hact] at hok
        rw [if_pos (by simp [truthy, hru])] at hok
        cases hok
    · intro hnp
      by_cases hact : (pt.last_comparator != some producer || cfg.eval) = true
      · obtain ⟨p1, p2, hv, hu, hrot⟩ :=
          resolvePoint_active_ok_inv cfg pt pt2 rp ru producer o2 hact hok
        have hF := verifyPending_frame pt p1 rp hv
        have hFu := resolveUnknown_frame cfg p1 p2 ru hu (by
          rcases hnp with hz | hne
          · exact Or.inl hz
          · exact Or.inr (by rw [hF.2.2.1]; exact hne))
        subst hrot
        rw [(rotateOffset_fields cfg producer p2 o2).2.2.2]
        rw [hFu.2.2, hF.2.2.2.2.2.1]
      · unfold resolvePoint at hok
        rw [if_neg hact] at hok
        by_cases hz : (truthy rp || truthy ru) = true
        · rw [if_pos hz] at hok
          cases hok
        · rw [if_neg hz] at hok
          cases hok
          rfl

/-! Concrete fixtures used by the witnesses and counterexamples. -/

/-- Standard secure configuration: `USE_PAILLIER` and `VALID` set, `EVAL`
off. -/
def cfgStd : Config := { usePaillier := true, valid := true, eval := false }

/-- Fixture map with id 1, registered by provider 10 with modulus 77. -/
def mapA : MapKey :=
  { map_id := 1, machine := "m1", material := "steel", tool := "t1",
    public_key_n := 77, first_provider := 10, past_requests := [] }

/-- Fixture point 1: optimal ciphertext 63 by provider 10 (true value 50
masked under offset 13), unknown ciphertext 83 by provider 11 (true value
70), producer 2 holds an open request in the current epoch, producer 5
already purchased the point. -/
def ptA : StoredPoint :=
  { id := 1, map_id := 1, ap := 1, ae := 1, usage_total := some 4,
    fz_optimal := some 63, provider_optimal := some 10,
    fz_pending := none, provider_pending := none,
    fz_unknown := some 83, provider_unknown := some 11,
    open_requests := [2], current_offset := 13,
    current_comparators := [2], last_comparator := none,
    point_vendees := [5] }

/-- Fixture point 2: provider 10 resubmitted a worse value (unknown 60)
than their own stored optimal (63); producer 2 compares. -/
def ptB : StoredPoint :=
  { id := 2, map_id := 1, ap := 1, ae := 2, usage_total := some 4,
    fz_optimal := some 63, provider_optimal := some 10,
    fz_pending := none, provider_pending := none,
    fz_unknown := some 60, provider_unknown := some 10,
    open_requests := [2], current_offset := 13,
    current_comparators := [2], last_comparator := none,
    point_vendees := [] }

/-- Fixture point 3: producer 4 holds an open request but is no longer in
the current epoch (`current_comparators` was cleared by someone else). -/
def ptC : StoredPoint :=
  { id := 3, map_id := 1, ap := 2, ae := 1, usage_total := some 4,
    fz_optimal := some 63, provider_optimal := some 10,
    fz_pending := none, provider_pending := none,
    fz_unknown := none, provider_unknown := none,
    open_requests := [4], current_offset := 13,
    current_comparators := [9], last_comparator := some 9,
    point_vendees := [] }

/-- Fixture database holding `mapA` and the three fixture points. -/
def dbA : DBState :=
  { maps := [mapA], points := [ptA, ptB, ptC], usages := [], reverseQuerists := [],
    retrievals := [], billings := [], previewBillings := [],
    offsetBillings := [], nextPointId := 4 }

/-- Clean fixture session over `dbA`. -/
def sA : Session := Session.clean dbA

/-- Result of the demotion resolution of `ptA` by producer 2 with result
63 (the incumbent wins) and fresh offset 100. -/
def ptDem : StoredPoint :=
  { id := 1, map_id := 1, ap := 1, ae := 1, usage_total := some 4,
    fz_optimal := some 150, provider_optimal := some 10,
    fz_pending := some 170, provider_pending := some 11,
    fz_unknown := none, provider_unknown := none,
    open_requests := [2], current_offset := 100,
    current_comparators := [], last_comparator := some 2,
    point_vendees := [5] }

/-- Result of the promotion resolution of `ptA` by producer 2 with result
83 (the unknown wins) and fresh offset 100. -/
def ptProm : StoredPoint :=
  { id := 1, map_id := 1, ap := 1, ae := 1, usage_total := some 4,
    fz_optimal := some 170, provider_optimal := some 11,
    fz_pending := some 150, provider_pending := some 10,
    fz_unknown := none, provider_unknown := none,
    open_requests := [2], current_offset := 100,
    current_comparators := [], last_comparator := some 2,
    point_vendees := [] }

/-- Witness for C5: producer 7 never requested a comparison for point 1,
so the submission is rejected and the session is untouched. -/
theorem c5_open_request_gating_witness :
    store_comparison cfgStd sA (1, 0, 83) 7 100 =
      (sA, some Err.notRequested) :=
  c5_open_request_gating cfgStd sA 1 0 83 7 100 ptA (by decide) (by decide)

/-- Witness for C10: producer 4 has an open request on point 3 but is not
a current comparator, so arbitrary junk results are accepted without any
mutation. -/
theorem c10_stale_epoch_noop_witness :
    store_comparison cfgStd sA (3, 999, 888) 4 100 = (sA, none) :=
  c10_stale_epoch_noop cfgStd sA 3 999 888 4 100 ptC (by decide) (by decide)
    (by decide)

/-- Witness for C2: the demotion of `ptA` stores offset 100 and a
re-masked optimal that still decrypts (minus the new offset) to the true
value 50. -/
theorem c2_offset_remask_witness :
    store_comparison cfgStd sA (1, 0, 63) 2 100 =
      (Session.clean (updatePoint dbA ptDem), none) ∧
    ptDem.current_offset = 100 ∧
    (∃ d, ptDem.fz_optimal = some d ∧ decrypt d - 100 = 50) := by
  have h := c2_offset_remask cfgStd sA 1 0 63 2 100 ptA ptDem 63
    (by decide) (by decide) (by decide) (by decide) (by decide) rfl
    (by decide) (by decide)
  exact ⟨h.1, h.2.1, h.2.2.1 (by decide) 50 (by decide)⟩

/-- Witness for C4: producer 2 reports the incumbent optimal of `ptB` as
the winner while its provider equals the unknown provider; the call rolls
back with the sub-optimal-value integrity violation. -/
theorem c4_no_downgrade_witness :
    store_comparison cfgStd sA (2, 0, 63) 2 100 =
      (sA.rollback, some Err.subOptimal) := by
  obtain ⟨e, he, hce⟩ := c4_no_downgrade cfgStd sA 2 0 63 2 100 ptB
    (by decide) (by decide) (by decide) (by decide) (by decide) (by decide)
    (by decide) (by decide) (by decide) (by decide)
  have he2 : e = Err.subOptimal := hce (by unfold pendingConsistent; decide)
  rw [he2] at he
  exact he

/-- Witness for C7: vendee 5 is excluded from the client selection over
`dbA`, and the concrete promotion of `ptA` clears the vendee list. -/
theorem c7_vendee_exclusion_witness :
    (∀ q ∈ clientPoints dbA 1 [(1, 1)] 5, 5 ∉ q.point_vendees) ∧
    ptProm.point_vendees = ([] : List Producer) := by
  have h := c7_vendee_exclusion dbA 1 [(1, 1)] 5 cfgStd ptA ptProm 0 83 2 100
  exact ⟨h.1, (h.2 rfl).1 (by decide)⟩

/-- An unconsumed preview voucher held by producer 7 on map 1. -/
def rqA : ReverseQuerist :=
  { map_id := some 1, producer := 7, point_count := 3, offset := -6,
    tool := "t1" }

/-- Fixture database like `dbA` but with producer 7 holding an active
voucher on map 1. -/
def dbV : DBState :=
  { maps := [mapA], points := [ptA, ptB, ptC], usages := [],
    reverseQuerists := [rqA], retrievals := [], billings := [],
    previewBillings := [], offsetBillings := [], nextPointId := 4 }

/-- Clean fixture session over `dbV`. -/
def sV : Session := Session.clean dbV

/-- C6 (amended): `get_comparisons_provider` does perform a reverse-query
exclusion — a provider holding an active `ReverseQuerist` voucher on an
existing map (with a matching key modulus) is rejected before any point is
provisioned. -/
theorem c6_provider_reverse_query_exclusion (cfg : Config) (s : Session)
    (mid : Nat) (machine material tool : String) (n : Nat)
    (ap_ae : List (Int × Int)) (producer : Producer) (offs : Nat → Int)
    (mk : MapKey)
    (hfind : findMapByName s.pending mid machine material tool = some mk)
    (hn : mk.public_key_n = n)
    (hq : (mapQuerists s.pending mid).any
      (fun q => q.producer == producer) = true) :
    get_comparisons_provider cfg s mid (machine, material, tool) n ap_ae
      producer offs = (s, .error .reverseQueriedNoOffset) := by
  unfold get_comparisons_provider
  dsimp only
  rw [hfind]
  dsimp only
  rw [if_neg (by simp [hn]), if_pos hq]

/-- Counterexample to C6 as stated: provider 7 holds an active voucher on
map 1 and `get_comparisons_provider` rejects the call on account of that
preview state. -/
theorem c6_counterexample :
    get_comparisons_provider cfgStd sV 1 ("m1", "steel", "t1") 77 [(1, 1)] 7
      (fun o => 0) = (sV, .error Err.reverseQueriedNoOffset) := rfl

/-- Witness for the amended C6 at the fixture input. -/
theorem c6_provider_reverse_query_exclusion_witness :
    get_comparisons_provider cfgStd sV 1 ("m1", "steel", "t1") 77 [(2, 2)] 7
      (fun o => 5) = (sV, .error Err.reverseQueriedNoOffset) :=
  c6_provider_reverse_query_exclusion cfgStd sV 1 "m1" "steel" "t1" 77
    [(2, 2)] 7 (fun o => 5) mapA (by decide) (by decide) (by decide)

/-- The per-point loop of `store_records_plaintext` never touches the
`map_keys` table. -/
theorem storeRecordsPlaintextLoop_maps (cfg : Config) (mid : Nat)
    (provider : Producer) (items : List (Int × Int × Int × Int)) :
    ∀ st : DBState,
      ((storeRecordsPlaintextLoop cfg st mid provider items).1).maps =
        st.maps := by
  induction items with
  | nil => intro st; rfl
  | cons item rest ih =>
    intro st
    obtain ⟨ap, ae, fz, usage⟩ := item
    unfold storeRecordsPlaintextLoop
    cases hfp : findPointByCoord st mid ap ae with
    | none =>
      dsimp only
      rw [ih]
    | some point =>
      dsimp only
      split
      · rfl
      · split
        · rfl
        · rw [ih]
          split <;> rfl

/-- The commit-or-rollback tail of `store_records_plaintext` preserves
every map row present in both the pending and the committed state. -/
theorem storeRecordsPlaintextFinish_mem (cfg : Config) (s2 : Session)
    (mid : Nat) (prov : Producer) (pts : List (Int × Int × Int × Int))
    (m : MapKey) (h1 : m ∈ s2.pending.maps) (h2 : m ∈ s2.committed.maps) :
    m ∈ ((storeRecordsPlaintextFinish cfg s2 mid prov pts).1).pending.maps := by
  unfold storeRecordsPlaintextFinish
  cases hl : storeRecordsPlaintextLoop cfg s2.pending mid prov pts with
  | mk st oe =>
    cases oe with
    | some e =>
      dsimp only
      exact h2
    | none =>
      dsimp only
      have hmaps := storeRecordsPlaintextLoop_maps cfg mid prov pts s2.pending
      rw [hl] at hmaps
      rw [Session.clean]
      dsimp only
      rw [hmaps]
      exact h1

/-- C9 (amended): a `public_key_n` mismatch on an existing map is rejected
with the key-confirmation integrity error by `get_comparisons_provider`,
while `store_records_plaintext` never fails on account of the submitted
modulus and never alters a stored map row (so the stored `public_key_n` is
immutable in both paths). -/
theorem c9_key_immutability (cfg : Config) (s : Session) (mid : Nat)
    (machine material tool : String) (n : Nat) (ap_ae : List (Int × Int))
    (producer : Producer) (offs : Nat → Int) (mk : MapKey)
    (pts : List (Int × Int × Int × Int)) (prov : Producer)
    (hclean : s.committed = s.pending)
    (hfind : findMapByName s.pending mid machine material tool = some mk)
    (hn : mk.public_key_n ≠ n) :
    get_comparisons_provider cfg s mid (machine, material, tool) n ap_ae
      producer offs = (s, .error .publicKeyMismatch) ∧
    ∀ m ∈ s.pending.maps,
      m ∈ ((store_records_plaintext cfg s mid (machine, material, tool) n
        pts prov).1).pending.maps := by
  constructor
  · unfold get_comparisons_provider
    dsimp only
    rw [hfind]
    dsimp only
    rw [if_pos (by simp [hfind, hn])]
  · intro m hm
    unfold store_records_plaintext
    dsimp only
    by_cases hg : (cfg.usePaillier && cfg.valid) = true
    · rw [if_pos hg]
      exact hm
    · rw [if_neg hg]
      rw [hfind]
      dsimp only
      cases hu : findUsage s.pending mid prov with
      | some mu =>
        dsimp only
        exact storeRecordsPlaintextFinish_mem cfg s mid prov pts m hm
          (by rw [hclean]; exact hm)
      | none =>
        dsimp only
        exact storeRecordsPlaintextFinish_mem cfg _ mid prov pts m hm hm

/-- Plaintext deployment configuration: Paillier disabled. -/
def cfgPlain : Config := { usePaillier := false, valid := true, eval := false }

/-- Fixture plaintext point on map 1 with optimal 10 and usage 3. -/
def ptP9 : StoredPoint :=
  { id := 1, map_id := 1, ap := 1, ae := 1, usage_total := some 3,
    fz_optimal := some 10, provider_optimal := some 10,
    fz_pending := none, provider_pending := none,
    fz_unknown := none, provider_unknown := none,
    open_requests := [], current_offset := 0,
    current_comparators := [], last_comparator := none,
    point_vendees := [] }

/-- Fixture plaintext database: map 1 stored with modulus 77. -/
def dbP9 : DBState :=
  { maps := [mapA], points := [ptP9], usages := [], reverseQuerists := [],
    retrievals := [], billings := [], previewBillings := [],
    offsetBillings := [], nextPointId := 2 }

/-- Clean fixture session over `dbP9`. -/
def sP9 : Session := Session.clean dbP9

/-- Counterexample to C9 as stated: `store_records_plaintext` naming the
stored map 1 (registered with modulus 77) but carrying modulus 99 does NOT
fail — it succeeds, silently ignoring the mismatched modulus (the stored
row keeps 77). -/
theorem c9_counterexample :
    ((store_records_plaintext cfgPlain sP9 1 ("m1", "steel", "t1") 99
      [(1, 1, 20, 1)] 12).2 = Except.ok ()) ∧
    ((store_records_plaintext cfgPlain sP9 1 ("m1", "steel", "t1") 99
      [(1, 1, 20, 1)] 12).1).committed.maps = [mapA] :=
  ⟨rfl, rfl⟩

/-- Witness for the amended C9 at the fixture inputs. -/
theorem c9_key_immutability_witness :
    get_comparisons_provider cfgStd sA 1 ("m1", "steel", "t1") 99 [(1, 1)] 2
      (fun o => 0) = (sA, .error Err.publicKeyMismatch) ∧
    mapA ∈ ((store_records_plaintext cfgStd sA 1 ("m1", "steel", "t1") 99
      [] 2).1).pending.maps := by
  have h := c9_key_immutability cfgStd sA 1 "m1" "steel" "t1" 99 [(1, 1)] 2
    (fun o => 0) mapA [] 2 rfl (by decide) (by decide)
  exact ⟨h.1, h.2 mapA (by decide)⟩

/-- Slot verification preserves the point id. -/
theorem verifyPending_id (pt p1 : StoredPoint) (rp : Int)
    (h : verifyPending pt rp = .ok p1) : p1.id = pt.id := by
  unfold verifyPending at h
  split_ifs at h <;> (try cases h) <;> simp

/-- Winner application preserves the point id. -/
theorem resolveUnknownCore_id (pt p : StoredPoint) (ru : Int)
    (h : resolveUnknownCore pt ru = .ok p) : p.id = pt.id := by
  unfold resolveUnknownCore at h
  split_ifs at h <;> (try cases h) <;> simp

/-- Unknown resolution preserves the point id. -/
theorem resolveUnknown_id (cfg : Config) (pt p2 : StoredPoint) (ru : Int)
    (h : resolveUnknown cfg pt ru = .ok p2) : p2.id = pt.id := by
  rcases resolveUnknown_ok_inv cfg pt p2 ru h with
    ⟨ht, hu, p, hc, hp2⟩ | ⟨ht, hu, hp2⟩
  · have hidc := resolveUnknownCore_id pt p ru hc
    subst hp2
    split_ifs <;> simp [hidc]
  · subst hp2; rfl

/-- Offset rotation preserves the point id. -/
theorem rotateOffset_id (cfg : Config) (producer : Producer)
    (p : StoredPoint) (o2 : Int) :
    (rotateOffset cfg producer p o2).id = p.id := rfl

/-- Per-point resolution preserves the point id. -/
theorem resolvePoint_id (cfg : Config) (pt pt2 : StoredPoint) (rp ru : Int)
    (producer : Producer) (o2 : Int)
    (h : resolvePoint cfg pt rp ru producer o2 = .ok pt2) :
    pt2.id = pt.id := by
  by_cases hact : (pt.last_comparator != some producer || cfg.eval) = true
  · obtain ⟨p1, p2, hv, hu2, hrot⟩ :=
      resolvePoint_active_ok_inv cfg pt pt2 rp ru producer o2 hact h
    subst hrot
    rw [rotateOffset_id, resolveUnknown_id cfg p1 p2 ru hu2,
      verifyPending_id pt p1 rp hv]
  · unfold resolvePoint at h
    rw [if_neg hact] at h
    split_ifs at h
    all_goals cases h
    all_goals rfl

/-- Replacing the row a lookup found (by a row with the same id) makes the
lookup return the replacement. -/
theorem find_map_update_eq (l : List StoredPoint) (pid : Nat)
    (q p : StoredPoint) (hid : p.id = q.id)
    (hf : l.find? (fun r => r.id == pid) = some q) :
    (l.map (fun r => if r.id == p.id then p else r)).find?
      (fun r => r.id == pid) = some p := by
  induction l with
  | nil => simp at hf
  | cons a t ih =>
    rw [List.map_cons]
    by_cases ha : (a.id == pid) = true
    · rw [@List.find?_cons_of_pos _ (fun r => r.id == pid) a t ha] at hf
      cases hf
      have hpa : (q.id == p.id) = true := by rw [hid]; simp
      rw [if_pos hpa]
      exact @List.find?_cons_of_pos _ (fun r => r.id == pid) p _
        (by show (p.id == pid) = true; rw [hid]; exact ha)
    · rw [@List.find?_cons_of_neg _ (fun r => r.id == pid) a t ha] at hf
      have hqid : (q.id == pid) = true := by
        have hs := List.find?_some hf
        simpa using hs
      by_cases hap : (a.id == p.id) = true
      · exfalso
        apply ha
        have h1 : a.id = p.id := by simpa using hap
        have h2 : q.id = pid := by simpa using hqid
        rw [h1, hid, h2]
        simp
      · rw [if_neg hap]
        rw [@List.find?_cons_of_neg _ (fun r => r.id == pid) a _ ha]
        exact ih hf

/-- Replacing a row whose id differs from the looked-up id does not change
the lookup. -/
theorem find_map_update_ne (l : List StoredPoint) (pid : Nat)
    (p : StoredPoint) (hne : (p.id == pid) = false) :
    (l.map (fun r => if r.id == p.id then p else r)).find?
      (fun r => r.id == pid) = l.find? (fun r => r.id == pid) := by
  induction l with
  | nil => rfl
  | cons a t ih =>
    rw [List.map_cons]
    by_cases hap : (a.id == p.id) = true
    · have haid : a.id = p.id := by simpa using hap
      have ha : ¬((a.id == pid) = true) := by rw [haid]; simp [hne]
      rw [if_pos hap]
      rw [@List.find?_cons_of_neg _ (fun r => r.id == pid) p _ (by simp [hne])]
      rw [@List.find?_cons_of_neg _ (fun r => r.id == pid) a t ha]
      exact ih
    · rw [if_neg hap]
      by_cases ha : (a.id == pid) = true
      · rw [@List.find?_cons_of_pos _ (fun r => r.id == pid) a _ ha,
          @List.find?_cons_of_pos _ (fun r => r.id == pid) a t ha]
      · rw [@List.find?_cons_of_neg _ (fun r => r.id == pid) a _ ha,
          @List.find?_cons_of_neg _ (fun r => r.id == pid) a t ha]
        exact ih

/-- `findPoint` after `updatePoint` of the found row returns the update. -/
theorem findPoint_updatePoint_eq (st : DBState) (pid : Nat)
    (q p : StoredPoint) (hf : findPoint st pid = some q)
    (hid : p.id = q.id) :
    findPoint (updatePoint st p) pid = some p :=
  find_map_update_eq st.points pid q p hid hf

/-- `findPoint` is unchanged by `updatePoint` of a row with another id. -/
theorem findPoint_updatePoint_ne (st : DBState) (pid : Nat)
    (p : StoredPoint) (hne : (p.id == pid) = false) :
    findPoint (updatePoint st p) pid = findPoint st pid :=
  find_map_update_ne st.points pid p hne

/-- A failing `_store_comparison` aborts the `get_points` loop with the
raised error and the session exactly as the failing call left it. -/
theorem getPointsLoop_cons_err (cfg : Config) (s s1 : Session)
    (r : Nat × Int × Int) (rest : List (Nat × Int × Int))
    (producer : Producer) (offs : Nat → Int) (k : Nat) (acc : List Nat)
    (e : Err)
    (h : store_comparison cfg s r producer (offs k) = (s1, some e)) :
    getPointsLoop cfg s (r :: rest) producer offs k acc = (s1, .error e) := by
  rw [getPointsLoop.eq_def]
  dsimp only
  rw [h]

/-- A successful `_store_comparison` step of the `get_points` loop removes
the producer from `open_requests`, adds them to `point_vendees` (outside
eval mode), and continues on the rest of the batch. -/
theorem getPointsLoop_cons_ok (cfg : Config) (s s1 : Session)
    (r : Nat × Int × Int) (rest : List (Nat × Int × Int))
    (producer : Producer) (offs : Nat → Int) (k : Nat) (acc : List Nat)
    (q : StoredPoint)
    (h : store_comparison cfg s r producer (offs k) = (s1, none))
    (hq : findPoint s1.pending r.1 = some q) :
    getPointsLoop cfg s (r :: rest) producer offs k acc =
      getPointsLoop cfg ⟨s1.committed, updatePoint s1.pending
        { q with
          open_requests := q.open_requests.erase producer,
          point_vendees := if cfg.eval then q.point_vendees
            else q.point_vendees ++ [producer] }⟩ rest producer offs (k + 1)
        (acc ++ [r.1]) := by
  conv_lhs => rw [getPointsLoop.eq_def]
  dsimp only
  rw [h]
  dsimp only
  rw [hq]

/-- C3 (amended): the rollback of a failing `get_points` batch is
per-point, not per-batch — when the first comparison result resolves
successfully (which `_store_comparison` commits immediately) and the
second submission is rejected, the call raises, yet the first point's
resolved state is already committed and visible to subsequent reads (only
the uncommitted bookkeeping is rolled back). -/
theorem c3_per_point_commit (cfg : Config) (s : Session)
    (producer : Producer) (offs : Nat → Int) (pid1 pid2 : Nat)
    (rp1 ru1 rp2 ru2 : Int) (pt1 pt1r pt2 : StoredPoint)
    (hfind1 : findPoint s.pending pid1 = some pt1)
    (hopen1 : producer ∈ pt1.open_requests)
    (hcur1 : producer ∈ pt1.current_comparators)
    (hres1 : resolvePoint cfg pt1 rp1 ru1 producer (offs 0) = .ok pt1r)
    (hneq : (pid2 == pid1) = false)
    (hfind2 : findPoint s.pending pid2 = some pt2)
    (hopen2 : producer ∉ pt2.open_requests) :
    get_points cfg s [(pid1, rp1, ru1), (pid2, rp2, ru2)] producer offs =
      (Session.clean (updatePoint s.pending pt1r), .error .notRequested) ∧
    findPoint (updatePoint s.pending pt1r) pid1 = some pt1r := by
  have hid1 : pt1r.id = pt1.id :=
    resolvePoint_id cfg pt1 pt1r rp1 ru1 producer (offs 0) hres1
  have hpt1 : (pt1.id == pid1) = true := by
    have hs := List.find?_some hfind1
    simpa using hs
  have hfr : findPoint (updatePoint s.pending pt1r) pid1 = some pt1r :=
    findPoint_updatePoint_eq s.pending pid1 pt1 pt1r hfind1 hid1
  have hsc1 : store_comparison cfg s (pid1, rp1, ru1) producer (offs 0) =
      (Session.clean (updatePoint s.pending pt1r), none) := by
    unfold store_comparison
    dsimp only
    rw [hfind1]
    dsimp only
    rw [if_neg (not_not_intro hopen1), if_pos hcur1, hres1]
  have hrne : (pt1r.id == pid2) = false := by
    have h1 : pt1.id = pid1 := by simpa using hpt1
    have h2 : pid2 ≠ pid1 := by simpa using hneq
    rw [hid1, h1]
    simpa using fun hc => h2 hc.symm
  have hbne : (({ pt1r with
      open_requests := pt1r.open_requests.erase producer,
      point_vendees := if cfg.eval then pt1r.point_vendees
        else pt1r.point_vendees ++ [producer] } : StoredPoint).id == pid2)
      = false := hrne
  have hfind2Y : findPoint (updatePoint (updatePoint s.pending pt1r)
      { pt1r with
        open_requests := pt1r.open_requests.erase producer,
        point_vendees := if cfg.eval then pt1r.point_vendees
          else pt1r.point_vendees ++ [producer] }) pid2 = some pt2 := by
    rw [findPoint_updatePoint_ne _ _ _ hbne,
      findPoint_updatePoint_ne _ _ _ hrne]
    exact hfind2
  have hsc2 : store_comparison cfg
      ⟨updatePoint s.pending pt1r, updatePoint (updatePoint s.pending pt1r)
        { pt1r with
          open_requests := pt1r.open_requests.erase producer,
          point_vendees := if cfg.eval then pt1r.point_vendees
            else pt1r.point_vendees ++ [producer] }⟩
      (pid2, rp2, ru2) producer (offs 1) =
      (⟨updatePoint s.pending pt1r, updatePoint (updatePoint s.pending pt1r)
        { pt1r with
          open_requests := pt1r.open_requests.erase producer,
          point_vendees := if cfg.eval then pt1r.point_vendees
            else pt1r.point_vendees ++ [producer] }⟩,
        some .notRequested) := by
    unfold store_comparison
    dsimp only
    rw [hfind2Y]
    dsimp only
    rw [if_pos hopen2]
  refine ⟨?_, hfr⟩
  have hloop := (getPointsLoop_cons_ok cfg s
      (Session.clean (updatePoint s.pending pt1r)) (pid1, rp1, ru1)
      [(pid2, rp2, ru2)] producer offs 0 [] pt1r hsc1 hfr).trans
    (getPointsLoop_cons_err cfg _ _ (pid2, rp2, ru2) [] producer offs 1
      [pid1] Err.notRequested hsc2)
  unfold get_points
  rw [hloop]
  dsimp only
  rfl

/-- Counterexample to C3 as stated: a two-result `get_points` batch whose
second submission is rejected still leaves the first point's comparison
mutations (`ptA` demoted to `ptDem`) committed and visible to subsequent
reads. -/
theorem c3_counterexample :
    ((get_points cfgStd sA [(1, 0, 63), (3, 0, 0)] 2 (fun o => 100)).2 =
      Except.error Err.notRequested) ∧
    findPoint ((get_points cfgStd sA [(1, 0, 63), (3, 0, 0)] 2
      (fun o => 100)).1).committed 1 = some ptDem ∧
    ptDem ≠ ptA :=
  ⟨rfl, rfl, by decide⟩

/-- Witness for the amended C3 at the fixture batch. -/
theorem c3_per_point_commit_witness :
    get_points cfgStd sA [(1, 0, 63), (3, 0, 0)] 2 (fun o => 100) =
      (Session.clean (updatePoint dbA ptDem), .error .notRequested) ∧
    findPoint (updatePoint dbA ptDem) 1 = some ptDem :=
  c3_per_point_commit cfgStd sA 2 (fun o => 100) 1 3 0 63 0 0 ptA ptDem ptC
    (by decide) (by decide) (by decide) rfl (by decide) (by decide)
    (by decide)

/-- The preview loop fails whenever the requested list contains a stored
map that the producer has already regular-queried (whatever error fires
first). -/
theorem previewsLoop_regular_query_error (cfg : Config) (client : Producer)
    (offs : Nat → Int) (mid : Nat) (mk : MapKey) (l : List Nat) :
    ∀ acc : PreviewAcc, mid ∈ l → findMap acc.pending mid = some mk →
      client ∈ mk.past_requests →
      ∃ e, previewsLoop cfg client offs acc l = .error e := by
  induction l with
  | nil =>
    intro acc hmem
    simp at hmem
  | cons a rest ih =>
    intro acc hmem hfind hpast
    unfold previewsLoop
    by_cases ha : a = mid
    · subst ha
      rw [hfind]
      dsimp only
      by_cases hq : (mapQuerists acc.pending a).any
          (fun q => q.producer == client) = true
      · rw [if_pos hq]
        exact ⟨_, rfl⟩
      · rw [if_neg hq, if_pos hpast]
        exact ⟨_, rfl⟩
    · have hmem2 : mid ∈ rest := by
        rcases List.mem_cons.mp hmem with h | h
        · exact absurd h.symm ha
        · exact h
      cases hfa : findMap acc.pending a with
      | none =>
        exact ⟨_, rfl⟩
      | some mka =>
        dsimp only
        by_cases hq : (mapQuerists acc.pending a).any
            (fun q => q.producer == client) = true
        · rw [if_pos hq]
          exact ⟨_, rfl⟩
        · rw [if_neg hq]
          by_cases hp : client ∈ mka.past_requests
          · rw [if_pos hp]
            exact ⟨_, rfl⟩
          · rw [if_neg hp]
            by_cases hempty : (previewPoints acc.pending a).isEmpty = true
            · rw [if_pos hempty]
              exact ih acc hmem2 hfind hpast
            · rw [if_neg hempty]
              exact ih _ hmem2 hfind hpast

/-- C8: a producer recorded in a map's `past_requests` (regular-queried)
makes any `get_previews` call containing that map fail, and a producer
holding an active `ReverseQuerist` voucher on a map is rejected by
`get_comparisons_client` for that map. -/
theorem c8_preview_query_mutual_exclusion (cfg : Config) (s : Session)
    (map_ids : List Nat) (client : Producer) (offs : Nat → Int) (mid : Nat)
    (mk : MapKey) (ap_ae : List (Int × Int)) :
    (mid ∈ map_ids → findMap s.pending mid = some mk →
      client ∈ mk.past_requests →
      ∃ e, (get_previews cfg s map_ids client offs).2 = .error e) ∧
    (findMap s.pending mid = some mk →
      (mapQuerists s.pending mid).any (fun q => q.producer == client) = true →
      get_comparisons_client cfg s mid ap_ae client =
        (s, .error .alreadyReverseQueried)) := by
  constructor
  · intro hmem hfind hpast
    obtain ⟨e, he⟩ := previewsLoop_regular_query_error cfg client offs mid mk
      map_ids ⟨s.pending, [], [], 0⟩ hmem hfind hpast
    refine ⟨e, ?_⟩
    unfold get_previews
    rw [he]
  · intro hfind hq
    unfold get_comparisons_client
    rw [hfind]
    dsimp only
    rw [if_pos hq]

/-- Fixture map 2, already regular-queried by producer 5. -/
def mapW : MapKey :=
  { map_id := 2, machine := "m2", material := "alu", tool := "t2",
    public_key_n := 77, first_provider := 10, past_requests := [5] }

/-- Fixture database for the mutual-exclusion witness. -/
def dbW : DBState :=
  { maps := [mapW], points := [], usages := [], reverseQuerists := [],
    retrievals := [], billings := [], previewBillings := [],
    offsetBillings := [], nextPointId := 1 }

/-- Clean fixture session over `dbW`. -/
def sW : Session := Session.clean dbW

/-- Witness for C8: producer 5 (already regular-queried map 2) cannot
preview it, and voucher-holder 7 is rejected by the client query on
map 1. -/
theorem c8_preview_query_mutual_exclusion_witness :
    (∃ e, (get_previews cfgStd sW [2] 5 (fun o => 7)).2 = .error e) ∧
    get_comparisons_client cfgStd sV 1 [(1, 1)] 7 =
      (sV, .error Err.alreadyReverseQueried) :=
  ⟨(c8_preview_query_mutual_exclusion cfgStd sW [2] 5 (fun o => 7) 2 mapW
      []).1 (by decide) (by decide) (by decide),
   (c8_preview_query_mutual_exclusion cfgStd sV [] 7 (fun o => 7) 1 mapA
      [(1, 1)]).2 (by decide) (by decide)⟩

/-- Fixture point for the preview round-trip: true value 50, stored as
ciphertext 63 under the point's current offset 13. -/
def ptP1 : StoredPoint :=
  { id := 1, map_id := 1, ap := 1, ae := 1, usage_total := some 4,
    fz_optimal := some 63, provider_optimal := some 10,
    fz_pending := none, provider_pending := none,
    fz_unknown := none, provider_unknown := none,
    open_requests := [], current_offset := 13,
    current_comparators := [], last_comparator := none,
    point_vendees := [] }

/-- Fixture database for the preview round-trip. -/
def dbP1 : DBState :=
  { maps := [mapA], points := [ptP1], usages := [], reverseQuerists := [],
    retrievals := [], billings := [], previewBillings := [],
    offsetBillings := [], nextPointId := 2 }

/-- Clean fixture session over `dbP1`. -/
def sP1 : Session := Session.clean dbP1

/-- C1 evaluated at the failing input: the stored optimal of the single
previewed point has true value 50 (ciphertext 63 under the point offset
13) and the shared preview draw is 7, so the shifted preview ciphertext
decrypts to 57.  The voucher, however, records the leaked inner-loop
variable `preview_offset - last_point.current_offset = -6`, which is what
`get_preview_info` returns — and unmasking with it gives 63, not the true
value 50; the shared draw 7 would have unmasked correctly. -/
theorem c1_preview_offset_bug :
    ((get_previews cfgStd sP1 [1] 2 (fun o => 7)).2 =
      .ok [(1, [(1, 1, 57, some 4)])]) ∧
    ((get_preview_info (get_previews cfgStd sP1 [1] 2 (fun o => 7)).1 1 2).2 =
      .ok (-6, "t1")) ∧
    decrypt 57 - (-6) ≠ 50 ∧
    decrypt 57 - 7 = 50 :=
  ⟨rfl, rfl, by decide, rfl⟩

end MapXchange
